import Mathlib

/-!
Shallow embedding of `src/git/repo.rs` (branch-management wrapper around the
git2 library).  The external library (libgit2 via the `git2` crate) is modelled
abstractly: a `RepoState` records the on-disk repository's local branches and
the outcomes the library primitives would report (iteration start failure,
per-entry iteration failure, name decoding, upstream lookup, head resolution,
commit lookup, tree checkout, head update).  The module's functions are then
translated statement by statement from the Rust source.  Rust `?` becomes
error propagation, `unwrap`/`expect` on a failed value becomes the `panic`
outcome; arguments of `log` macros are evaluated only when the corresponding
log level is enabled (field `logErrorEnabled` for `error!`; the `info!`
arguments occurring in the source can never panic on the paths they run on).
-/

set_option autoImplicit false

namespace GitBranchManager

/-- Error kinds of the underlying git library, plus the message. -/
inductive GitErrorKind where
  | notFound
  | alreadyExists
  | generic
deriving Repr, DecidableEq

/-- An error value from the underlying git library (`git2::Error`). -/
structure GitError where
  kind : GitErrorKind
  msg : String
deriving Repr, DecidableEq

/-- `git2::Error::from_str` builds a generic error from a message. -/
def GitError.fromStr (s : String) : GitError :=
  { kind := GitErrorKind.generic, msg := s }

/-- The library error returned by `find_branch` when no branch has the name. -/
def branchNotFound (name : String) : GitError :=
  { kind := GitErrorKind.notFound, msg := "cannot locate local branch " ++ name }

/-- The library error returned by `Repository::branch` when the name is taken. -/
def branchAlreadyExists (name : String) : GitError :=
  { kind := GitErrorKind.alreadyExists, msg := "branch already exists " ++ name }

/-- Rust panic message of `Option::unwrap` on `None`. -/
def unwrapNoneMsg : String := "called Option::unwrap on a None value"

/-- Rust panic message of `Result::unwrap` on `Err`. -/
def unwrapErrMsg : String := "called Result::unwrap on an Err value"

/-- Rust panic message of the `expect` in `GitRepo::from_cwd`. -/
def cwdPanicMsg : String := "Unable to get current working directory"

/-- Result of a call that may also abort the process (Rust panic). -/
inductive Outcome (α : Type) where
  | ok : α → Outcome α
  | err : GitError → Outcome α
  | panic : String → Outcome α
deriving Repr

/-- Whether an outcome is an error result returned to the caller. -/
def Outcome.isErr {α : Type} : Outcome α → Bool
  | Outcome.err _ => true
  | _ => false

/-- Whether an outcome is a process abort. -/
def Outcome.isPanic {α : Type} : Outcome α → Bool
  | Outcome.panic _ => true
  | _ => false

instance exceptDecEq {ε α : Type} [DecidableEq ε] [DecidableEq α] :
    DecidableEq (Except ε α) := fun x y =>
  match x, y with
  | Except.ok a, Except.ok b =>
    if h : a = b then isTrue (by rw [h]) else isFalse (fun hh => by cases hh; exact h rfl)
  | Except.ok _, Except.error _ => isFalse (fun hh => by cases hh)
  | Except.error _, Except.ok _ => isFalse (fun hh => by cases hh)
  | Except.error a, Except.error b =>
    if h : a = b then isTrue (by rw [h]) else isFalse (fun hh => by cases hh; exact h rfl)

instance outcomeDecEq {α : Type} [DecidableEq α] : DecidableEq (Outcome α) := fun x y =>
  match x, y with
  | Outcome.ok a, Outcome.ok b =>
    if h : a = b then isTrue (by rw [h]) else isFalse (fun hh => by cases hh; exact h rfl)
  | Outcome.err a, Outcome.err b =>
    if h : a = b then isTrue (by rw [h]) else isFalse (fun hh => by cases hh; exact h rfl)
  | Outcome.panic a, Outcome.panic b =>
    if h : a = b then isTrue (by rw [h]) else isFalse (fun hh => by cases hh; exact h rfl)
  | Outcome.ok _, Outcome.err _ => isFalse (fun hh => by cases hh)
  | Outcome.ok _, Outcome.panic _ => isFalse (fun hh => by cases hh)
  | Outcome.err _, Outcome.ok _ => isFalse (fun hh => by cases hh)
  | Outcome.err _, Outcome.panic _ => isFalse (fun hh => by cases hh)
  | Outcome.panic _, Outcome.ok _ => isFalse (fun hh => by cases hh)
  | Outcome.panic _, Outcome.err _ => isFalse (fun hh => by cases hh)

/-- Object id (commit or tree id) of the underlying object database. -/
abbrev Oid := Nat

/-- `GitRemoteBranch` from the source: the upstream tracking branch, by name. -/
structure GitRemoteBranch where
  name : String
deriving Repr, DecidableEq

/-- `GitBranch` from the source: a listed local branch. -/
structure GitBranch where
  name : String
  is_head : Bool
  upstream : Option GitRemoteBranch
deriving Repr, DecidableEq

/-- Model of the upstream branch handle returned by `Branch::upstream`:
`nameResult` is what its `name()` call reports (`Ok (some s)` when the name
decodes as UTF-8, `Ok none` when it does not, `error` when retrieval fails). -/
structure UpstreamRaw where
  nameResult : Except GitError (Option String)
deriving Repr, DecidableEq

/-- Model of one local branch as stored in the repository, together with the
answers the library primitives give for it:
* `nameResult` — what `Branch::name()` reports (`Ok (some s)` iff the ref name
  decodes as UTF-8);
* `isHead` — what `Branch::is_head()` reports;
* `upstreamResult` — what `Branch::upstream()` reports (`error` when no
  upstream is configured or the lookup fails);
* `target` — the commit the branch points at;
* `peelResult` — what `Reference::peel_to_tree()` reports for the branch ref;
* `iterError` — `some e` when the branch iterator yields `Err e` for this
  entry instead of the branch itself;
* `deleteResult` — what `Branch::delete()` would report if invoked. -/
structure StoredBranch where
  nameResult : Except GitError (Option String)
  isHead : Bool
  upstreamResult : Except GitError UpstreamRaw
  target : Oid
  peelResult : Except GitError Oid
  iterError : Option GitError
  deleteResult : Except GitError Unit
deriving Repr, DecidableEq

/-- Model of the reference returned by `Repository::head()`: `target` is
`some oid` for a direct reference to a commit, `none` for a symbolic
reference with no resolvable target. -/
structure HeadRef where
  target : Option Oid
deriving Repr, DecidableEq

/-- Model of the repository handle (`GitRepo`) together with the behaviour of
the library primitives it delegates to:
* `iterStart` — `some e` when `Repository::branches(Some(Local))` itself fails;
* `branches` — the stored local branches, in iteration order;
* `headResult` — what `Repository::head()` reports;
* `commitLookup` — `some e` when `Repository::find_commit` fails on that oid;
* `treeOf` — the tree of a commit (used when a new branch ref is peeled);
* `checkoutTreeResult` — `some e` when `Repository::checkout_tree` fails;
* `setHeadResult` — `some e` when `Repository::set_head` fails;
* `headName` — the reference HEAD currently points at;
* `workTree` — the tree currently materialised in the working directory;
* `logErrorEnabled` — whether error-level logging is enabled, i.e. whether
  the arguments of `error!` macros are evaluated. -/
structure RepoState where
  iterStart : Option GitError
  branches : List StoredBranch
  headResult : Except GitError HeadRef
  commitLookup : Oid → Option GitError
  treeOf : Oid → Except GitError Oid
  checkoutTreeResult : Oid → Option GitError
  setHeadResult : String → Option GitError
  headName : String
  workTree : Oid
  logErrorEnabled : Bool

/-- The full reference name of a local branch (`branch_ref.name()`). -/
def refNameOf (name : String) : String := "refs/heads/" ++ name

/-- The entry the branch iterator yields for one stored branch: the branch
itself, or the recorded per-entry error. -/
def entry_of (b : StoredBranch) : Except GitError StoredBranch :=
  match b.iterError with
  | some e => Except.error e
  | none => Except.ok b

/-- The fallible entries yielded by the branch iterator, in order. -/
def branch_entries (repo : RepoState) : List (Except GitError StoredBranch) :=
  repo.branches.map entry_of

/-- `extract_upstream_branch` from the source:
`local_branch.upstream().ok()?` then `upstream_branch.name().ok()??`. -/
def extract_upstream_branch (b : StoredBranch) : Option GitRemoteBranch :=
  match b.upstreamResult with
  | Except.error _ => none
  | Except.ok up =>
    match up.nameResult with
    | Except.error _ => none
    | Except.ok none => none
    | Except.ok (some n) => some { name := n }

/-- `GitRepo::create_git_branch` from the source: turn one fallible iterator
entry into a `GitBranch`, or `none` when the entry or its name fails. -/
def create_git_branch (res : Except GitError StoredBranch) : Option GitBranch :=
  match res with
  | Except.error _ => none
  | Except.ok branch =>
    match branch.nameResult with
    | Except.error _ => none
    | Except.ok none => none
    | Except.ok (some name) =>
      some { name := name, is_head := branch.isHead,
             upstream := extract_upstream_branch branch }

/-- `GitRepo::local_branches` from the source: start the iteration (its
failure propagates), then `filter_map` the entries through
`create_git_branch`. -/
def local_branches (repo : RepoState) : Except GitError (List GitBranch) :=
  match repo.iterStart with
  | some e => Except.error e
  | none => Except.ok ((branch_entries repo).filterMap create_git_branch)

/-- `GitRepo::from_cwd` from the source: `current_dir()` is modelled by the
`cwd` argument — on failure the `expect` panics; otherwise the discovery
result (`Repository::discover`, modelled by `discover`) is propagated. -/
def from_cwd (cwd : Except String String)
    (discover : String → Except GitError RepoState) : Outcome RepoState :=
  match cwd with
  | Except.error _ => Outcome.panic cwdPanicMsg
  | Except.ok p =>
    match discover p with
    | Except.error e => Outcome.err e
    | Except.ok repo => Outcome.ok repo

/-- `GitRepo::checkout_branch_from_name` from the source: `find_branch` by
exact name (its not-found error propagates), peel the branch ref to a tree,
`checkout_tree` (failure reported as `Failed to checkout tree`), then
`set_head` (failure reported as `Failed to set HEAD`). -/
def checkout_branch_from_name (repo : RepoState) (branch_name : String) :
    Except GitError Unit × RepoState :=
  match repo.branches.find? (fun b => decide (b.nameResult = Except.ok (some branch_name))) with
  | none => (Except.error (branchNotFound branch_name), repo)
  | some branch =>
    match branch.peelResult with
    | Except.error e => (Except.error e, repo)
    | Except.ok tree =>
      match repo.checkoutTreeResult tree with
      | some _ => (Except.error (GitError.fromStr "Failed to checkout tree"), repo)
      | none =>
        let repo1 := { repo with workTree := tree }
        match repo1.setHeadResult (refNameOf branch_name) with
        | some _ => (Except.error (GitError.fromStr "Failed to set HEAD"), repo1)
        | none => (Except.ok (), { repo1 with headName := refNameOf branch_name })

/-- `GitRepo::checkout_branch` from the source: delegate to the name-based
form on the branch value's `name` field. -/
def checkout_branch (repo : RepoState) (branch : GitBranch) :
    Except GitError Unit × RepoState :=
  checkout_branch_from_name repo branch.name

/-- `GitRepo::validate_branch_name` from the source.  `Branch::name_is_valid`
is a static library primitive, modelled by the `name_is_valid` argument.
The Rust `&&` short-circuits: when the name is not unique the right-hand
side (and its `?`) is never evaluated. -/
def validate_branch_name (repo : RepoState)
    (name_is_valid : String → Except GitError Bool) (name : String) :
    Except GitError Bool × RepoState :=
  match local_branches repo with
  | Except.error e => (Except.error e, repo)
  | Except.ok lbs =>
    let is_unique_name := !(lbs.any (fun b => b.name == name))
    if is_unique_name then
      match name_is_valid name with
      | Except.error e => (Except.error e, repo)
      | Except.ok v => (Except.ok (is_unique_name && v), repo)
    else
      (Except.ok false, repo)

/-- The stored branch created by `Repository::branch(name, commit, false)`:
not head, no upstream configured yet, pointing at the given commit. -/
def new_stored_branch (name : String) (head_oid : Oid) (tree : Except GitError Oid) :
    StoredBranch :=
  { nameResult := Except.ok (some name), isHead := false,
    upstreamResult := Except.error (branchNotFound name), target := head_oid,
    peelResult := tree, iterError := none, deleteResult := Except.ok () }

/-- `GitRepo::create_branch` from the source: resolve head (failure
propagates); when `head.target()` is `None` the `error!` log evaluates
`head_oid.unwrap()` — a panic — if error logging is enabled, and otherwise
the symbolic-reference error is returned; then `find_commit` (failure
propagates) and `Repository::branch` with force = false (collision is an
error, otherwise the branch is appended to the store). -/
def create_branch (repo : RepoState) (to_create : GitBranch) : Outcome Unit × RepoState :=
  match repo.headResult with
  | Except.error e => (Outcome.err e, repo)
  | Except.ok head =>
    match head.target with
    | none =>
      if repo.logErrorEnabled then
        (Outcome.panic unwrapNoneMsg, repo)
      else
        (Outcome.err (GitError.fromStr "Attempted to create a branch from a symbolic reference"), repo)
    | some head_oid =>
      match repo.commitLookup head_oid with
      | some e => (Outcome.err e, repo)
      | none =>
        if repo.branches.any (fun b => decide (b.nameResult = Except.ok (some to_create.name))) then
          (Outcome.err (branchAlreadyExists to_create.name), repo)
        else
          (Outcome.ok (),
           { repo with branches :=
               repo.branches ++ [new_stored_branch to_create.name head_oid (repo.treeOf head_oid)] })

/-- The loop body of `GitRepo::delete_branch`: walk the yielded entries in
order; `continue` on an `Err` entry or a failing `name()`; on the first entry
whose name is `Some` and equals the target, call `delete().unwrap()` — a
panic when the deletion fails, otherwise the branch is removed and the loop
breaks.  Returns the loop's outcome and the surviving store. -/
def delete_scan (target : String) : List StoredBranch → Outcome Unit × List StoredBranch
  | [] => (Outcome.ok (), [])
  | b :: rest =>
    if b.iterError.isSome then
      let r := delete_scan target rest
      (r.1, b :: r.2)
    else
      match b.nameResult with
      | Except.error _ =>
        let r := delete_scan target rest
        (r.1, b :: r.2)
      | Except.ok none =>
        let r := delete_scan target rest
        (r.1, b :: r.2)
      | Except.ok (some n) =>
        if target = n then
          match b.deleteResult with
          | Except.error _ => (Outcome.panic unwrapErrMsg, b :: rest)
          | Except.ok _ => (Outcome.ok (), rest)
        else
          let r := delete_scan target rest
          (r.1, b :: r.2)

/-- `GitRepo::delete_branch` from the source: start the iteration (its
failure propagates), then scan with `delete_scan`. -/
def delete_branch (repo : RepoState) (to_delete : GitBranch) : Outcome Unit × RepoState :=
  match repo.iterStart with
  | some e => (Outcome.err e, repo)
  | none =>
    let r := delete_scan to_delete.name repo.branches
    (r.1, { repo with branches := r.2 })

/-- The condition under which the delete scan matches an entry: the iterator
yields it and its name decodes to exactly the target. -/
def matches_target (target : String) (b : StoredBranch) : Bool :=
  b.iterError.isNone && decide (b.nameResult = Except.ok (some target))

/-- First entry the delete scan would match, if any. -/
def scan_match (target : String) (bs : List StoredBranch) : Option StoredBranch :=
  bs.find? (matches_target target)

/-- A healthy stored branch named `main`, currently checked out. -/
def mainStored : StoredBranch :=
  { nameResult := Except.ok (some "main"), isHead := true,
    upstreamResult := Except.ok { nameResult := Except.ok (some "origin/main") },
    target := 1, peelResult := Except.ok 11, iterError := none,
    deleteResult := Except.ok () }

/-- A stored branch whose iteration entry is yielded as an error. -/
def brokenIterStored : StoredBranch :=
  { nameResult := Except.ok (some "broken"), isHead := false,
    upstreamResult := Except.error (GitError.fromStr "no upstream"), target := 2,
    peelResult := Except.ok 12, iterError := some (GitError.fromStr "iter entry failed"),
    deleteResult := Except.ok () }

/-- A stored branch whose deletion call fails. -/
def badDeleteStored : StoredBranch :=
  { nameResult := Except.ok (some "feature"), isHead := false,
    upstreamResult := Except.error (GitError.fromStr "no upstream"), target := 3,
    peelResult := Except.ok 13, iterError := none,
    deleteResult := Except.error (GitError.fromStr "cannot delete branch") }

/-- A repository whose head is a symbolic reference with no target, with
error-level logging enabled. -/
def repoSymbolicHead : RepoState :=
  { iterStart := none, branches := [],
    headResult := Except.ok { target := none },
    commitLookup := fun _ => none, treeOf := fun o => Except.ok o,
    checkoutTreeResult := fun _ => none, setHeadResult := fun _ => none,
    headName := "refs/heads/main", workTree := 0, logErrorEnabled := true }

/-- Same repository as `repoSymbolicHead` but with error logging disabled. -/
def repoSymbolicHeadQuiet : RepoState :=
  { repoSymbolicHead with logErrorEnabled := false }

/-- A repository holding one branch whose deletion call fails. -/
def repoBadDelete : RepoState :=
  { iterStart := none, branches := [badDeleteStored],
    headResult := Except.ok { target := some 1 },
    commitLookup := fun _ => none, treeOf := fun o => Except.ok o,
    checkoutTreeResult := fun _ => none, setHeadResult := fun _ => none,
    headName := "refs/heads/main", workTree := 11, logErrorEnabled := true }

/-- A repository holding `main` plus an entry whose iteration step fails. -/
def repoMain : RepoState :=
  { iterStart := none, branches := [mainStored, brokenIterStored],
    headResult := Except.ok { target := some 1 },
    commitLookup := fun _ => none, treeOf := fun o => Except.ok o,
    checkoutTreeResult := fun _ => none, setHeadResult := fun _ => none,
    headName := "refs/heads/main", workTree := 11, logErrorEnabled := true }

/-- A name-validity check that accepts every non-empty name. -/
def nv_nonempty : String → Except GitError Bool :=
  fun s => Except.ok (!(s.isEmpty))

/-- A name-validity check that always fails with an error. -/
def nv_err : String → Except GitError Bool :=
  fun _ => Except.error (GitError.fromStr "name check failed")

/-- A discovery function that never finds a repository. -/
def discover_none : String → Except GitError RepoState :=
  fun _ => Except.error (GitError.fromStr "could not find repository")

theorem delete_scan_skip (target : String) (b : StoredBranch) (rest : List StoredBranch)
    (h : matches_target target b = false) :
    delete_scan target (b :: rest) =
      ((delete_scan target rest).1, b :: (delete_scan target rest).2) := by
  unfold matches_target at h
  rw [Bool.and_eq_false_iff] at h
  rw [delete_scan]
  cases hit : b.iterError with
  | some e => simp [hit]
  | none =>
    have hname : b.nameResult ≠ Except.ok (some target) := by
      rcases h with h | h
      · rw [hit] at h; simp at h
      · simpa using h
    simp only [hit, Option.isSome_none, Bool.false_eq_true, if_false]
    cases hnr : b.nameResult with
    | error e => rfl
    | ok o =>
      cases o with
      | none => rfl
      | some n =>
        have hne : ¬ target = n := by
          intro hcontra
          exact hname (by rw [hnr, hcontra])
        simp [hne]

theorem delete_scan_no_match (target : String) (bs : List StoredBranch)
    (h : ∀ b ∈ bs, matches_target target b = false) :
    delete_scan target bs = (Outcome.ok (), bs) := by
  induction bs with
  | nil => rfl
  | cons b rest ih =>
    rw [delete_scan_skip target b rest (h b (List.mem_cons_self b rest))]
    rw [ih (fun x hx => h x (List.mem_cons_of_mem b hx))]

theorem delete_scan_match_panic (target : String) (bs : List StoredBranch)
    (sb : StoredBranch) (e : GitError)
    (hm : scan_match target bs = some sb) (hd : sb.deleteResult = Except.error e) :
    (delete_scan target bs).1 = Outcome.panic unwrapErrMsg := by
  induction bs with
  | nil => simp [scan_match] at hm
  | cons b rest ih =>
    by_cases hb : matches_target target b = true
    · have hsb : sb = b := by
        unfold scan_match at hm
        rw [List.find?_cons_of_pos _ hb] at hm
        exact (Option.some_injective _ hm).symm
      have hit : b.iterError = none := by
        unfold matches_target at hb
        rw [Bool.and_eq_true] at hb
        exact Option.isNone_iff_eq_none.mp hb.1
      have hnr : b.nameResult = Except.ok (some target) := by
        unfold matches_target at hb
        rw [Bool.and_eq_true] at hb
        exact of_decide_eq_true hb.2
      rw [delete_scan]
      rw [hsb] at hd
      simp [hit, hnr, hd]
    · have hb' : matches_target target b = false := by
        exact Bool.eq_false_iff.mpr hb
      have hm' : scan_match target rest = some sb := by
        unfold scan_match at hm ⊢
        rw [List.find?_cons_of_neg _ hb] at hm
        exact hm
      rw [delete_scan_skip target b rest hb']
      exact ih hm'

theorem extract_some_iff (b : StoredBranch) (u : GitRemoteBranch) :
    extract_upstream_branch b = some u ↔
      ∃ up, b.upstreamResult = Except.ok up ∧
        up.nameResult = Except.ok (some u.name) := by
  obtain ⟨un⟩ := u
  unfold extract_upstream_branch
  cases hup : b.upstreamResult with
  | error e => simp
  | ok up =>
    cases hn : up.nameResult with
    | error e => simp [hn]
    | ok o =>
      cases o with
      | none => simp [hn]
      | some n => simp [hn, GitRemoteBranch.mk.injEq, eq_comm]

theorem upstream_view_iff (b : StoredBranch) (o : Option GitRemoteBranch) :
    o = extract_upstream_branch b ↔
      (∀ u, o = some u ↔
        ∃ up, b.upstreamResult = Except.ok up ∧
          up.nameResult = Except.ok (some u.name)) := by
  constructor
  · rintro rfl u
    exact extract_some_iff b u
  · intro h
    cases ho : extract_upstream_branch b with
    | some v => exact (h v).mpr ((extract_some_iff b v).mp ho)
    | none =>
      cases hoo : o with
      | none => rfl
      | some u =>
        exfalso
        have h1 := (h u).mp hoo
        have h2 := (extract_some_iff b u).mpr h1
        rw [ho] at h2
        cases h2

theorem local_branches_ok_iterStart (repo : RepoState) (l : List GitBranch)
    (hl : local_branches repo = Except.ok l) : repo.iterStart = none := by
  unfold local_branches at hl
  cases hi : repo.iterStart with
  | none => rfl
  | some e => rw [hi] at hl; cases hl

theorem local_branches_ok_val (repo : RepoState) (l : List GitBranch)
    (hl : local_branches repo = Except.ok l) :
    l = (branch_entries repo).filterMap create_git_branch := by
  unfold local_branches at hl
  rw [local_branches_ok_iterStart repo l hl] at hl
  exact (Except.ok.injEq _ _ ▸ hl).symm

theorem entry_of_eq_ok (b c : StoredBranch) :
    entry_of b = Except.ok c ↔ b.iterError = none ∧ c = b := by
  unfold entry_of
  cases h : b.iterError with
  | some e => simp
  | none => simp [eq_comm]

theorem create_git_branch_error (e : GitError) :
    create_git_branch (Except.error e) = none := rfl

theorem create_git_branch_ok_eq_some (b : StoredBranch) (gb : GitBranch) :
    create_git_branch (Except.ok b) = some gb ↔
      b.nameResult = Except.ok (some gb.name) ∧ gb.is_head = b.isHead ∧
      gb.upstream = extract_upstream_branch b := by
  obtain ⟨gname, ghead, gup⟩ := gb
  simp only [create_git_branch]
  cases hnr : b.nameResult with
  | error e =>
    exact iff_of_false (fun h => Option.noConfusion h) (fun h => Except.noConfusion h.1)
  | ok o =>
    cases o with
    | none =>
      exact iff_of_false (fun h => Option.noConfusion h)
        (fun h => Option.noConfusion (Except.ok.inj h.1))
    | some n =>
      show some (GitBranch.mk n b.isHead (extract_upstream_branch b)) =
          some (GitBranch.mk gname ghead gup) ↔
        Except.ok (some n) = Except.ok (some gname) ∧ ghead = b.isHead ∧
          gup = extract_upstream_branch b
      simp only [Option.some_inj, GitBranch.mk.injEq, Except.ok.injEq]
      constructor
      · rintro ⟨h1, h2, h3⟩
        exact ⟨h1, h2.symm, h3.symm⟩
      · rintro ⟨h1, h2, h3⟩
        exact ⟨h1, h2.symm, h3.symm⟩

theorem mem_local_branches_iff (repo : RepoState) (l : List GitBranch) (gb : GitBranch)
    (hl : local_branches repo = Except.ok l) :
    gb ∈ l ↔ ∃ b ∈ repo.branches, b.iterError = none ∧
      b.nameResult = Except.ok (some gb.name) ∧ gb.is_head = b.isHead ∧
      gb.upstream = extract_upstream_branch b := by
  rw [local_branches_ok_val repo l hl]
  unfold branch_entries
  rw [List.mem_filterMap]
  constructor
  · rintro ⟨entry, hmem, hcg⟩
    rw [List.mem_map] at hmem
    obtain ⟨b, hb, hfb⟩ := hmem
    cases entry with
    | error e => exact absurd hcg (by rw [create_git_branch_error]; intro hh; cases hh)
    | ok c =>
      obtain ⟨hit, hcb⟩ := (entry_of_eq_ok b c).mp hfb
      subst hcb
      obtain ⟨h1, h2, h3⟩ := (create_git_branch_ok_eq_some c gb).mp hcg
      exact ⟨c, hb, hit, h1, h2, h3⟩
  · rintro ⟨b, hb, hit, hnr, hih, hup⟩
    refine ⟨Except.ok b, ?_, ?_⟩
    · rw [List.mem_map]
      exact ⟨b, hb, (entry_of_eq_ok b b).mpr ⟨hit, rfl⟩⟩
    · exact (create_git_branch_ok_eq_some b gb).mpr ⟨hnr, hih, hup⟩

theorem stored_in_listing (repo : RepoState) (l : List GitBranch) (b : StoredBranch)
    (n : String) (hl : local_branches repo = Except.ok l) (hb : b ∈ repo.branches)
    (hit : b.iterError = none) (hnr : b.nameResult = Except.ok (some n)) :
    ∃ gb ∈ l, gb.name = n := by
  have hmem := mem_local_branches_iff repo l
    { name := n, is_head := b.isHead, upstream := extract_upstream_branch b } hl
  refine ⟨_, hmem.mpr ⟨b, hb, hit, hnr, rfl, rfl⟩, rfl⟩

theorem any_name_eq_true (l : List GitBranch) (name : String) :
    l.any (fun b => b.name == name) = true ↔ ∃ gb ∈ l, gb.name = name := by
  rw [List.any_eq_true]
  constructor
  · rintro ⟨x, hx, hxe⟩
    exact ⟨x, hx, by simpa using hxe⟩
  · rintro ⟨x, hx, hxe⟩
    exact ⟨x, hx, by simpa using hxe⟩

theorem validate_eq_collision (repo : RepoState) (nv : String → Except GitError Bool)
    (name : String) (l : List GitBranch) (hl : local_branches repo = Except.ok l)
    (hb : l.any (fun b => b.name == name) = true) :
    validate_branch_name repo nv name = (Except.ok false, repo) := by
  unfold validate_branch_name
  rw [hl]
  simp [hb]

theorem validate_eq_unique (repo : RepoState) (nv : String → Except GitError Bool)
    (name : String) (l : List GitBranch) (hl : local_branches repo = Except.ok l)
    (hb : l.any (fun b => b.name == name) = false) :
    validate_branch_name repo nv name =
      (match nv name with
       | Except.error e => (Except.error e, repo)
       | Except.ok v => (Except.ok v, repo)) := by
  unfold validate_branch_name
  rw [hl]
  cases hv : nv name with
  | error e => simp [hb, hv]
  | ok v => simp [hb, hv]

theorem create_branch_ok_state (repo : RepoState) (gb : GitBranch) (hd : HeadRef)
    (oid : Oid) (hh : repo.headResult = Except.ok hd) (ht : hd.target = some oid)
    (hs : (create_branch repo gb).1 = Outcome.ok ()) :
    (create_branch repo gb).2 =
      { repo with branches := repo.branches ++
          [new_stored_branch gb.name oid (repo.treeOf oid)] } := by
  unfold create_branch at hs ⊢
  rw [hh] at hs ⊢
  simp only [ht] at hs ⊢
  cases hcl : repo.commitLookup oid with
  | some e =>
    rw [hcl] at hs
    simp at hs
  | none =>
    rw [hcl] at hs
    cases hco : repo.branches.any (fun b => decide (b.nameResult = Except.ok (some gb.name))) with
    | true =>
      rw [hco] at hs
      simp at hs
    | false =>
      simp

/-- Claim C1 (code bug).  The spec says that when head has no resolvable
target commit, `create_branch` returns the symbolic-reference error as a
result and is not fatal to the process.  The code, however, evaluates
`head_oid.unwrap()` — on a value it has just checked to be `None` — inside
the `error!` log call on that path, so with error-level logging enabled the
call panics before reaching the intended `return Err`; with logging disabled
the intended error result is returned, showing the `Err` was the intent. -/
theorem create_branch_symbolic_head_panics :
    (create_branch repoSymbolicHead
        { name := "feature", is_head := false, upstream := none }).1
      = Outcome.panic unwrapNoneMsg ∧
    (create_branch repoSymbolicHeadQuiet
        { name := "feature", is_head := false, upstream := none }).1
      = Outcome.err
          (GitError.fromStr "Attempted to create a branch from a symbolic reference") :=
  ⟨rfl, rfl⟩

/-- Claim C2 counterexample.  In `repoBadDelete` the branch `feature` is
found by the scan and its deletion call fails; contrary to the claim, the
failure is not returned to the caller as an error result — the call panics
through `unwrap`, which is fatal to the process. -/
theorem delete_branch_deletion_failure_counterexample :
    (delete_branch repoBadDelete
        { name := "feature", is_head := false, upstream := none }).1
      = Outcome.panic unwrapErrMsg ∧
    Outcome.isErr (delete_branch repoBadDelete
        { name := "feature", is_head := false, upstream := none }).1 = false :=
  ⟨rfl, rfl⟩

theorem delete_branch_eq_scan (repo : RepoState) (gb : GitBranch)
    (hi : repo.iterStart = none) :
    delete_branch repo gb = ((delete_scan gb.name repo.branches).1,
      { repo with branches := (delete_scan gb.name repo.branches).2 }) := by
  obtain ⟨is, bs, hr, cl, tf, ctr, shr, hnm, wt, le⟩ := repo
  have hi2 : is = none := hi
  subst hi2
  rfl

/-- Claim C2 (amended).  Whenever the branch iteration starts and the scan
reaches an entry whose name matches the target exactly while the underlying
deletion call on it fails, `delete_branch` does not silently continue and
does not return the failure as an error result: it panics via `unwrap`,
aborting the process. -/
theorem delete_branch_panics_when_deletion_fails (repo : RepoState) (gb : GitBranch)
    (sb : StoredBranch) (e : GitError) (hi : repo.iterStart = none)
    (hm : scan_match gb.name repo.branches = some sb)
    (hd : sb.deleteResult = Except.error e) :
    (delete_branch repo gb).1 = Outcome.panic unwrapErrMsg := by
  rw [delete_branch_eq_scan repo gb hi]
  exact delete_scan_match_panic gb.name repo.branches sb e hm hd

/-- Witness for C2 at the concrete repository `repoBadDelete`. -/
theorem delete_branch_panics_when_deletion_fails_witness :
    (repoBadDelete.iterStart = none ∧
     scan_match "feature" repoBadDelete.branches = some badDeleteStored ∧
     badDeleteStored.deleteResult
       = Except.error (GitError.fromStr "cannot delete branch")) ∧
    (delete_branch repoBadDelete
        { name := "feature", is_head := false, upstream := none }).1
      = Outcome.panic unwrapErrMsg :=
  ⟨⟨rfl, rfl, rfl⟩,
   delete_branch_panics_when_deletion_fails repoBadDelete
     { name := "feature", is_head := false, upstream := none } badDeleteStored
     (GitError.fromStr "cannot delete branch") rfl rfl rfl⟩

/-- Claim C3.  `local_branches` returns an error exactly when the iteration
itself fails to start; otherwise the returned listing contains exactly those
branches whose iteration entry is yielded and whose name decodes as UTF-8,
each carrying the library's checked-out flag, and with `upstream` set iff an
upstream is configured and its name resolves. -/
theorem local_branches_spec (repo : RepoState) :
    (∀ e, local_branches repo = Except.error e ↔ repo.iterStart = some e) ∧
    (∀ l, local_branches repo = Except.ok l → ∀ gb : GitBranch,
      (gb ∈ l ↔ ∃ b ∈ repo.branches, b.iterError = none ∧
        b.nameResult = Except.ok (some gb.name) ∧ gb.is_head = b.isHead ∧
        (∀ u, gb.upstream = some u ↔
          ∃ up, b.upstreamResult = Except.ok up ∧
            up.nameResult = Except.ok (some u.name)))) := by
  constructor
  · intro e
    unfold local_branches
    cases hi : repo.iterStart with
    | some e2 => simp
    | none => simp
  · intro l hl gb
    rw [mem_local_branches_iff repo l gb hl]
    constructor
    · rintro ⟨b, hb, hit, hnr, hih, hup⟩
      exact ⟨b, hb, hit, hnr, hih, (upstream_view_iff b gb.upstream).mp hup⟩
    · rintro ⟨b, hb, hit, hnr, hih, hup⟩
      exact ⟨b, hb, hit, hnr, hih, (upstream_view_iff b gb.upstream).mpr hup⟩

/-- Witness for C3 at the concrete repository `repoMain`: the listing keeps
`main` (with upstream `origin/main`) and drops the entry whose iteration
step fails. -/
theorem local_branches_spec_witness :
    local_branches repoMain
      = Except.ok [GitBranch.mk "main" true (some (GitRemoteBranch.mk "origin/main"))] ∧
    (GitBranch.mk "main" true (some (GitRemoteBranch.mk "origin/main"))
        ∈ [GitBranch.mk "main" true (some (GitRemoteBranch.mk "origin/main"))] ↔
      ∃ b ∈ repoMain.branches, b.iterError = none ∧
        b.nameResult = Except.ok (some (GitBranch.mk "main" true
          (some (GitRemoteBranch.mk "origin/main"))).name) ∧
        (GitBranch.mk "main" true (some (GitRemoteBranch.mk "origin/main"))).is_head
          = b.isHead ∧
        (∀ u, (GitBranch.mk "main" true
            (some (GitRemoteBranch.mk "origin/main"))).upstream = some u ↔
          ∃ up, b.upstreamResult = Except.ok up ∧
            up.nameResult = Except.ok (some u.name))) :=
  ⟨rfl, (local_branches_spec repoMain).2 _ rfl _⟩

/-- Claim C4.  `validate_branch_name` never mutates the repository state;
it returns `Ok false` when the name equals (case-sensitively) a listed
local branch name, mirrors the library's ref-naming validity verdict when
the name is unique, and returns `Ok true` exactly when the name is unique
and the validity check passes. -/
theorem validate_branch_name_spec (repo : RepoState)
    (nv : String → Except GitError Bool) (name : String) (l : List GitBranch)
    (hl : local_branches repo = Except.ok l) :
    (validate_branch_name repo nv name).2 = repo ∧
    ((∃ gb ∈ l, gb.name = name) →
      (validate_branch_name repo nv name).1 = Except.ok false) ∧
    ((¬ ∃ gb ∈ l, gb.name = name) → ∀ v, nv name = Except.ok v →
      (validate_branch_name repo nv name).1 = Except.ok v) ∧
    ((validate_branch_name repo nv name).1 = Except.ok true ↔
      (¬ ∃ gb ∈ l, gb.name = name) ∧ nv name = Except.ok true) := by
  by_cases hc : ∃ gb ∈ l, gb.name = name
  · have heq := validate_eq_collision repo nv name l hl
      ((any_name_eq_true l name).mpr hc)
    rw [heq]
    exact ⟨rfl, fun _ => rfl, fun hnc => absurd hc hnc,
      iff_of_false (fun h => Bool.noConfusion (Except.ok.inj h)) (fun h => h.1 hc)⟩
  · have hb : l.any (fun b => b.name == name) = false := by
      cases hbb : l.any (fun b => b.name == name) with
      | false => rfl
      | true => exact absurd ((any_name_eq_true l name).mp hbb) hc
    have heq := validate_eq_unique repo nv name l hl hb
    cases hv : nv name with
    | error e =>
      rw [hv] at heq
      rw [heq]
      refine ⟨rfl, fun h => absurd h hc, ?_, ?_⟩
      · intro _ v hveq
        exact Except.noConfusion hveq
      · exact iff_of_false (fun h => Except.noConfusion h)
          (fun h => Except.noConfusion h.2)
    | ok v =>
      rw [hv] at heq
      rw [heq]
      refine ⟨rfl, fun h => absurd h hc, ?_, ?_⟩
      · intro _ v' hveq
        exact congrArg Except.ok (Except.ok.inj hveq)
      · constructor
        · intro h
          exact ⟨hc, h⟩
        · rintro ⟨_, h2⟩
          exact h2

/-- Witness for C4 at `repoMain` with a fresh name and a validity check
accepting non-empty names. -/
theorem validate_branch_name_spec_witness :
    local_branches repoMain
      = Except.ok [GitBranch.mk "main" true (some (GitRemoteBranch.mk "origin/main"))] ∧
    ((validate_branch_name repoMain nv_nonempty "feature").2 = repoMain ∧
     ((∃ gb ∈ [GitBranch.mk "main" true (some (GitRemoteBranch.mk "origin/main"))],
        gb.name = "feature") →
       (validate_branch_name repoMain nv_nonempty "feature").1 = Except.ok false) ∧
     ((¬ ∃ gb ∈ [GitBranch.mk "main" true (some (GitRemoteBranch.mk "origin/main"))],
        gb.name = "feature") → ∀ v, nv_nonempty "feature" = Except.ok v →
       (validate_branch_name repoMain nv_nonempty "feature").1 = Except.ok v) ∧
     ((validate_branch_name repoMain nv_nonempty "feature").1 = Except.ok true ↔
       (¬ ∃ gb ∈ [GitBranch.mk "main" true (some (GitRemoteBranch.mk "origin/main"))],
         gb.name = "feature") ∧ nv_nonempty "feature" = Except.ok true)) :=
  ⟨rfl, validate_branch_name_spec repoMain nv_nonempty "feature" _ rfl⟩

/-- Claim C5.  For every name matching no existing local branch,
`checkout_branch_from_name` fails with the branch-not-found error and has
no side effect: the returned state — head pointer and working tree
included — is exactly the state before the call. -/
theorem checkout_missing_branch_no_effect (repo : RepoState) (name : String)
    (h : ∀ b ∈ repo.branches, b.nameResult ≠ Except.ok (some name)) :
    checkout_branch_from_name repo name
      = (Except.error (branchNotFound name), repo) := by
  unfold checkout_branch_from_name
  have hf : repo.branches.find?
      (fun b => decide (b.nameResult = Except.ok (some name))) = none := by
    rw [List.find?_eq_none]
    intro b hb
    simp only [decide_eq_true_eq]
    exact h b hb
  rw [hf]

/-- Witness for C5 at `repoMain` with an absent branch name. -/
theorem checkout_missing_branch_no_effect_witness :
    (∀ b ∈ repoMain.branches, b.nameResult ≠ Except.ok (some "absent")) ∧
    checkout_branch_from_name repoMain "absent"
      = (Except.error (branchNotFound "absent"), repoMain) :=
  ⟨by decide, checkout_missing_branch_no_effect repoMain "absent" (by decide)⟩

/-- Claim C6.  Deleting a branch whose name is not among the repository's
listed local branches succeeds as a no-op: the call returns `Ok`, the state
is unchanged, and `local_branches` before and after are identical. -/
theorem delete_branch_absent_noop (repo : RepoState) (gb : GitBranch)
    (l : List GitBranch) (hl : local_branches repo = Except.ok l)
    (hn : ∀ x ∈ l, x.name ≠ gb.name) :
    delete_branch repo gb = (Outcome.ok (), repo) ∧
    local_branches (delete_branch repo gb).2 = local_branches repo := by
  have hi : repo.iterStart = none := local_branches_ok_iterStart repo l hl
  have hmf : ∀ b ∈ repo.branches, matches_target gb.name b = false := by
    intro b hb
    cases htrue : matches_target gb.name b with
    | false => rfl
    | true =>
      exfalso
      unfold matches_target at htrue
      rw [Bool.and_eq_true] at htrue
      have hit : b.iterError = none := Option.isNone_iff_eq_none.mp htrue.1
      have hnr : b.nameResult = Except.ok (some gb.name) := of_decide_eq_true htrue.2
      obtain ⟨x, hx, hxn⟩ := stored_in_listing repo l b gb.name hl hb hit hnr
      exact hn x hx hxn
  have hmain : delete_branch repo gb = (Outcome.ok (), repo) := by
    rw [delete_branch_eq_scan repo gb hi,
      delete_scan_no_match gb.name repo.branches hmf]
  exact ⟨hmain, by rw [hmain]⟩

/-- Witness for C6 at `repoMain` with an absent branch name. -/
theorem delete_branch_absent_noop_witness :
    (local_branches repoMain
        = Except.ok [GitBranch.mk "main" true (some (GitRemoteBranch.mk "origin/main"))] ∧
      ∀ x ∈ [GitBranch.mk "main" true (some (GitRemoteBranch.mk "origin/main"))],
        x.name ≠ (GitBranch.mk "absent" false none).name) ∧
    delete_branch repoMain (GitBranch.mk "absent" false none)
      = (Outcome.ok (), repoMain) :=
  ⟨⟨rfl, by decide⟩,
   (delete_branch_absent_noop repoMain (GitBranch.mk "absent" false none)
     [GitBranch.mk "main" true (some (GitRemoteBranch.mk "origin/main"))]
     rfl (by decide)).1⟩

/-- Claim C7.  After a successful `create_branch` in a repository whose
head points at a concrete commit, the new state stores a branch with the
requested name pointing at that same commit, and any listing obtained from
the new state includes a branch with the requested name. -/
theorem create_branch_then_listed (repo : RepoState) (gb : GitBranch) (hd : HeadRef)
    (oid : Oid) (l : List GitBranch)
    (hh : repo.headResult = Except.ok hd) (ht : hd.target = some oid)
    (hs : (create_branch repo gb).1 = Outcome.ok ())
    (hl : local_branches (create_branch repo gb).2 = Except.ok l) :
    (∃ sb ∈ (create_branch repo gb).2.branches,
      sb.nameResult = Except.ok (some gb.name) ∧ sb.target = oid) ∧
    ∃ x ∈ l, x.name = gb.name := by
  have hstate := create_branch_ok_state repo gb hd oid hh ht hs
  have hnew : new_stored_branch gb.name oid (repo.treeOf oid)
      ∈ (create_branch repo gb).2.branches := by
    rw [hstate]
    exact List.mem_append_right _ (List.mem_singleton_self _)
  constructor
  · exact ⟨new_stored_branch gb.name oid (repo.treeOf oid), hnew, rfl, rfl⟩
  · exact stored_in_listing (create_branch repo gb).2 l _ gb.name hl hnew rfl rfl

/-- Witness for C7: creating `feature` in `repoMain` succeeds and the new
listing contains it. -/
theorem create_branch_then_listed_witness :
    (repoMain.headResult = Except.ok (HeadRef.mk (some 1)) ∧
     (HeadRef.mk (some 1)).target = some 1 ∧
     (create_branch repoMain (GitBranch.mk "feature" false none)).1 = Outcome.ok () ∧
     local_branches (create_branch repoMain (GitBranch.mk "feature" false none)).2
       = Except.ok [GitBranch.mk "main" true (some (GitRemoteBranch.mk "origin/main")),
                    GitBranch.mk "feature" false none]) ∧
    ((∃ sb ∈ (create_branch repoMain (GitBranch.mk "feature" false none)).2.branches,
        sb.nameResult
          = Except.ok (some (GitBranch.mk "feature" false none).name) ∧
        sb.target = 1) ∧
      ∃ x ∈ [GitBranch.mk "main" true (some (GitRemoteBranch.mk "origin/main")),
             GitBranch.mk "feature" false none],
        x.name = (GitBranch.mk "feature" false none).name) :=
  ⟨⟨rfl, rfl, rfl, rfl⟩,
   create_branch_then_listed repoMain (GitBranch.mk "feature" false none)
     (HeadRef.mk (some 1)) 1 _ rfl rfl rfl rfl⟩

/-- Claim C8.  `checkout_branch` on a Branch value returns exactly the same
result and has exactly the same effect as `checkout_branch_from_name` on
its name field — it is a pure delegation with no extra re-validation. -/
theorem checkout_branch_delegates (repo : RepoState) (gb : GitBranch) :
    checkout_branch repo gb = checkout_branch_from_name repo gb.name := rfl

/-- Claim C9.  When the current working directory cannot be obtained,
`from_cwd` panics through `expect` instead of returning an error result;
only failures of repository discovery itself are returned as `Err`. -/
theorem from_cwd_spec (cwd : Except String String)
    (discover : String → Except GitError RepoState) :
    (∀ s, cwd = Except.error s → from_cwd cwd discover = Outcome.panic cwdPanicMsg) ∧
    (∀ p, cwd = Except.ok p →
      (∀ e, discover p = Except.error e → from_cwd cwd discover = Outcome.err e) ∧
      (∀ r, discover p = Except.ok r → from_cwd cwd discover = Outcome.ok r)) := by
  constructor
  · rintro s rfl
    rfl
  · rintro p rfl
    constructor
    · intro e he
      unfold from_cwd
      simp only [he]
    · intro r hr
      unfold from_cwd
      simp only [hr]

/-- Witness for C9 at a concrete failing working-directory lookup. -/
theorem from_cwd_spec_witness :
    (Except.error "io failure" : Except String String) = Except.error "io failure" ∧
    from_cwd (Except.error "io failure") discover_none = Outcome.panic cwdPanicMsg :=
  ⟨rfl, (from_cwd_spec (Except.error "io failure") discover_none).1 "io failure" rfl⟩

/-- Claim C10.  When the name collides with a listed local branch name,
`validate_branch_name` short-circuits to `Ok false` for every possible
behaviour of the syntactic validity check — in particular an error from
that check is never surfaced for a colliding name. -/
theorem validate_short_circuit_on_collision (repo : RepoState)
    (nv : String → Except GitError Bool) (name : String) (l : List GitBranch)
    (hl : local_branches repo = Except.ok l) (hc : ∃ gb ∈ l, gb.name = name) :
    validate_branch_name repo nv name = (Except.ok false, repo) :=
  validate_eq_collision repo nv name l hl ((any_name_eq_true l name).mpr hc)

/-- Witness for C10 at `repoMain` with the colliding name `main` and a
validity check that always fails with an error. -/
theorem validate_short_circuit_on_collision_witness :
    (local_branches repoMain
        = Except.ok [GitBranch.mk "main" true (some (GitRemoteBranch.mk "origin/main"))] ∧
      ∃ gb ∈ [GitBranch.mk "main" true (some (GitRemoteBranch.mk "origin/main"))],
        gb.name = "main") ∧
    validate_branch_name repoMain nv_err "main" = (Except.ok false, repoMain) :=
  ⟨⟨rfl, by decide⟩,
   validate_short_circuit_on_collision repoMain nv_err "main"
     [GitBranch.mk "main" true (some (GitRemoteBranch.mk "origin/main"))]
     rfl (by decide)⟩

end GitBranchManager
